import Mathlib

/-!
Verification of the steam-locate library (TypeScript) against its
natural-language specification.

The development shallowly embeds the synchronous core of the library:

* `src/src/steam-path.ts` — platform dispatch and the per-platform root
  resolvers (`findSteamPathSync`, `findSteamPathWindows`,
  `findSteamPathMacOS`, `findSteamPathLinux`);
* `src/src/index.ts` lines 331–360 — the monolithic variant of
  `findSteamPathLinux`, which adds a `which steam` fallback (namespace
  `IndexTs`);
* the manifest parser and app locator (`findSteamAppInLibrariesSync`) and the
  inventory aggregator (`getInstalledSteamAppsFromLibrariesSync`) from the
  steam-apps module;
* the library-folder discoverer (`getLibraryFoldersSync`) from
  `src/src/steam-libraries.ts`;
* the process detector (`isSteamRunningSync` and its asynchronous twin) and
  the version detector (`getSteamVersionSync`);
* the public orchestrator (`findSteamLocationSync` / `findSteamAppSync` /
  `getInstalledSteamAppsSync` and the asynchronous counterparts).

External effects (filesystem, registry and process queries through
`child_process.execSync`, environment variables) are modelled by an explicit
environment record `Env` of pure functions; a `none` result of
`Env.readFileSync` / `Env.execSync` models the call throwing.  The Node
`path` functions (`normalize`, `resolve`, `join`) are library code outside
the repository and are carried as opaque fields of `Env`, so every theorem
holds for every behaviour of those functions.  The JavaScript regular
expressions the source applies are implemented character by character with
the exact literal/whitespace/capture structure of each pattern.  JavaScript
numbers produced by `parseInt` are modelled as `Option Int` with `none`
standing for `NaN`, and a `Date` by its epoch-milliseconds value, `none`
standing for an invalid date.
-/

/-! ## JavaScript string primitives -/

/-- The characters the JavaScript `\s` class matches (restricted to the ASCII
range; the source never relies on Unicode white space). -/
def isJsWs (c : Char) : Bool :=
  c = ' ' || c = '\t' || c = '\n' || c = '\r' || c = '\x0b' || c = '\x0c'

/-- Line terminators, which the JavaScript `.` pattern refuses to match. -/
def isLineTerm (c : Char) : Bool :=
  c = '\n' || c = '\r'

/-- Drop a literal pattern from the front of `s`; `none` when `s` does not
start with it. -/
def dropLit : List Char → List Char → Option (List Char)
  | [], s => some s
  | _ :: _, [] => none
  | p :: ps, c :: cs => if p = c then dropLit ps cs else none

/-- Whether `s` starts with the literal `p` (JavaScript `String.startsWith`). -/
def strStarts (p s : String) : Bool := (dropLit p.data s.data).isSome

/-- Whether `s` ends with the literal `p` (JavaScript `String.endsWith`). -/
def strEnds (p s : String) : Bool := (dropLit p.data.reverse s.data.reverse).isSome

/-- Run the position matcher `m` at every suffix of the input, left to right,
and return its first success: the scanning loop of a JavaScript regular
expression search. -/
def scanFor (m : List Char → Option α) : List Char → Option α
  | [] => m []
  | c :: rest =>
    match m (c :: rest) with
    | some r => some r
    | none => scanFor m rest

/-- JavaScript `String.includes`. -/
def containsSub (needle hay : String) : Bool :=
  (scanFor (dropLit needle.data) hay.data).isSome

/-- JavaScript `String.trim` (ASCII white space). -/
def jsTrim (s : String) : String :=
  String.mk (((s.data.dropWhile isJsWs).reverse.dropWhile isJsWs).reverse)

/-- JavaScript `String.toLowerCase` (the paths involved are ASCII). -/
def jsToLower (s : String) : String := String.map Char.toLower s

/-- JavaScript `parseInt(s, 10)`: skip white space, read an optional sign and
then a maximal run of decimal digits; `none` models the `NaN` result when no
digit is found. -/
def digitsVal (cs : List Char) : Option Nat :=
  let ds := cs.takeWhile Char.isDigit
  if ds.isEmpty then none
  else some (ds.foldl (fun a c => a * 10 + (c.toNat - 48)) 0)

def jsParseInt (s : String) : Option Int :=
  match s.data.dropWhile isJsWs with
  | '-' :: rest => (digitsVal rest).map (fun n => -(n : Int))
  | '+' :: rest => (digitsVal rest).map (fun n => (n : Int))
  | cs => (digitsVal cs).map (fun n => (n : Int))

/-- `s.replace(/\\\\/g, '\\')`: collapse every pair of backslashes into one,
left to right and without overlap. -/
def unescapeBS : List Char → List Char
  | '\\' :: '\\' :: rest => '\\' :: unescapeBS rest
  | c :: rest => c :: unescapeBS rest
  | [] => []

def unescapeBSStr (s : String) : String := String.mk (unescapeBS s.data)

/-! ## The pattern `/"key"\s*"([^"]+)"/` used on manifest text -/

/-- Attempt the pattern `"key"\s*"([^"]+)"` at the head of `s`; on success
return the capture and the rest of the input after the full match. -/
def keyQuotedAt (key : List Char) (s : List Char) : Option (String × List Char) :=
  match dropLit ('"' :: key ++ ['"']) s with
  | none => none
  | some s1 =>
    match dropLit ['"'] (s1.dropWhile isJsWs) with
    | none => none
    | some s2 =>
      let cap := s2.takeWhile (fun c => c ≠ '"')
      if cap.isEmpty then none
      else
        match s2.dropWhile (fun c => c ≠ '"') with
        | '"' :: rest => some (String.mk cap, rest)
        | _ => none

/-- `content.match(/"key"\s*"([^"]+)"/)?.[1]`: the capture of the first
match, scanning positions left to right. -/
def findKeyQuoted (key : String) (content : String) : Option String :=
  scanFor (fun s => (keyQuotedAt key.data s).map Prod.fst) content.data

/-- All captures of `/"key"\s*"([^"]+)"/g`, in appearance order and without
overlap: after each match scanning resumes right after its closing quote.
The fuel argument starts at the input length and never runs out, because
every step consumes at least one character. -/
def findAllKeyQuotedAux (key : List Char) : Nat → List Char → List String
  | 0, _ => []
  | _ + 1, [] => []
  | fuel + 1, c :: rest =>
    match keyQuotedAt key (c :: rest) with
    | some (cap, after) => cap :: findAllKeyQuotedAux key fuel after
    | none => findAllKeyQuotedAux key fuel rest

def findAllKeyQuoted (key : String) (content : String) : List String :=
  findAllKeyQuotedAux key.data content.data.length content.data

/-! ## The registry pattern `/(?:SteamPath|InstallPath)\s+REG_SZ\s+(.+)/` -/

/-- `\s+` followed by a literal whose first character is not white space:
the greedy run needs no backtracking. -/
def wsPlusThen (lit : List Char) (s : List Char) : Option (List Char) :=
  if (s.takeWhile isJsWs).isEmpty then none
  else dropLit lit (s.dropWhile isJsWs)

/-- `\s+(.+)` at `s` with the greedy backtracking of the JavaScript engine:
the `\s+` keeps the longest white-space prefix that still leaves a
non-line-terminator for `.` to start on, and the capture is the maximal run
of non-line-terminators from there. `go` tries the split points from the
full white-space run downwards. -/
def wsPlusCaptureGo (s : List Char) : Nat → Option (List Char)
  | 0 => none
  | k + 1 =>
    match s.drop (k + 1) with
    | [] => wsPlusCaptureGo s k
    | c :: cs =>
      if isLineTerm c then wsPlusCaptureGo s k
      else some (c :: cs.takeWhile (fun x => ¬ isLineTerm x))

def wsPlusCapture (s : List Char) : Option (List Char) :=
  wsPlusCaptureGo s (s.takeWhile isJsWs).length

/-- The pattern `(?:SteamPath|InstallPath)\s+REG_SZ\s+(.+)` attempted at the
head of `s` (the two alternatives start with different letters, so the
alternation needs no backtracking). -/
def regCaptureAt (s : List Char) : Option String :=
  let afterKey :=
    match dropLit "SteamPath".data s with
    | some r => some r
    | none => dropLit "InstallPath".data s
  match afterKey with
  | none => none
  | some r1 =>
    match wsPlusThen "REG_SZ".data r1 with
    | none => none
    | some r2 => (wsPlusCapture r2).map String.mk

/-- `regOutput.match(/(?:SteamPath|InstallPath)\s+REG_SZ\s+(.+)/)?.[1]`. -/
def regCapture (regOutput : String) : Option String :=
  scanFor regCaptureAt regOutput.data

/-- The capture of `/appmanifest_(\d+)\.acf/` on a file name: a literal, a
maximal non-empty digit run (a digit cannot continue into `.acf`, so greedy
matching needs no backtracking) and a literal. -/
def appIdAt (s : List Char) : Option String :=
  match dropLit "appmanifest_".data s with
  | none => none
  | some r =>
    let ds := r.takeWhile Char.isDigit
    if ds.isEmpty then none
    else
      match dropLit ".acf".data (r.dropWhile Char.isDigit) with
      | some _ => some (String.mk ds)
      | none => none

def appIdOfManifestName (file : String) : Option String :=
  scanFor appIdAt file.data

/-! ## Environment and data model -/

/-- The ambient operating system as the library sees it.  `existsSync`,
`readFileSync`, `readdirSync` are the `fs` calls (`none` = the call threw);
`execSync` runs a shell command (`none` = it threw, timed out or exited
non-zero); `envVar` is `process.env`; `homedir` is `os.homedir()`;
`platform` is `os.platform()`.  `normalize`, `resolve1`, `resolvePath` and
`joinPath` are the Node `path` functions, carried opaquely. -/
structure Env where
  platform : String
  homedir : String
  existsSync : String → Bool
  readFileSync : String → Option String
  readdirSync : String → Option (List String)
  execSync : String → Option String
  envVar : String → Option String
  normalize : String → String
  resolve1 : String → String
  resolvePath : String → String → String
  joinPath : String → String → String

/-- The two user-visible error kinds of the library
(`src/src/errors.ts`). -/
inductive SteamError where
  | notFound (message : String) (platform : Option String)
  | appNotFound (appId : String) (message : String)
deriving Repr, DecidableEq

deriving instance DecidableEq for Except

/-- The message carried by an error (`Error.message`). -/
def SteamError.message : SteamError → String
  | .notFound m _ => m
  | .appNotFound _ m => m

/-- The default `SteamAppNotFoundError` message. -/
def appNotFoundMsg (appId : String) : String :=
  "Steam app with ID " ++ appId ++ " not found"

/-- `SteamApp` (types module).  `sizeOnDisk`: outer `none` = the field is
absent (`undefined`), `some none` = present with value `NaN`, `some (some n)`
= present with value `n`.  `lastUpdated` likewise, with the inner value the
epoch-milliseconds of the `Date` and `some none` an invalid date. -/
structure SteamApp where
  appId : String
  name : Option String
  installDir : Option String
  sizeOnDisk : Option (Option Int)
  isInstalled : Bool
  lastUpdated : Option (Option Int)
deriving Repr, DecidableEq

/-- `SteamLocation` (types module). -/
structure SteamLocation where
  path : String
  isRunning : Bool
  platform : String
  version : Option String
  libraryFolders : List String
deriving Repr, DecidableEq

/-! ## Path resolver (`src/src/steam-path.ts`) -/

/-- The combined registry query command of `findSteamPathWindows`. -/
def regQueryCmd : String :=
  "reg query \"HKCU\\Software\\Valve\\Steam\" /v SteamPath 2>nul || reg query \"HKLM\\Software\\Valve\\Steam\" /v InstallPath 2>nul"

/-- `existsSync(p) && existsSync(resolve(p, 'steam.exe'))`: the verification
applied both to the registry value and to each probed conventional path. -/
def verifiedSteamDir (env : Env) (p : String) : Bool :=
  env.existsSync p && env.existsSync (env.resolvePath p "steam.exe")

/-- The fixed probe list of `findSteamPathWindows` (`process.env.X || ''`
degrades an unset variable to the empty string). -/
def commonWindowsPaths (env : Env) : List String :=
  ["C:\\Program Files (x86)\\Steam",
   "C:\\Program Files\\Steam",
   env.resolvePath ((env.envVar "LOCALAPPDATA").getD "") "Steam",
   env.resolvePath ((env.envVar "APPDATA").getD "") "Steam"]

/-- The `for (let path of commonPaths)` loop: normalize each entry and return
the first that exists and contains `steam.exe`; throw when the list is
exhausted. -/
def findWindowsCommonLoop (env : Env) : List String → Except SteamError String
  | [] => .error (.notFound "Could not locate Steam installation on Windows" none)
  | p :: rest =>
    let q := env.normalize p
    if verifiedSteamDir env q then .ok q else findWindowsCommonLoop env rest

/-- `findSteamPathWindows` (`src/src/steam-path.ts` lines 42–74).  The source
applies `.trim().replace(/\\/g, '\\')` to the captured registry value; that
`replace` maps every single backslash to a single backslash and is the
identity, so only the trim and the `normalize` remain. -/
def findSteamPathWindows (env : Env) : Except SteamError String :=
  match env.execSync regQueryCmd with
  | some regOutput =>
    match regCapture regOutput with
    | some cap =>
      let steamPath := env.normalize (jsTrim cap)
      if verifiedSteamDir env steamPath then .ok steamPath
      else findWindowsCommonLoop env (commonWindowsPaths env)
    | none => findWindowsCommonLoop env (commonWindowsPaths env)
  | none => findWindowsCommonLoop env (commonWindowsPaths env)

/-- `findSteamPathMacOS` (`src/src/steam-path.ts` lines 79–85). -/
def findSteamPathMacOS (env : Env) : Except SteamError String :=
  let steamPath := env.resolvePath env.homedir "Library/Application Support/Steam"
  if env.existsSync steamPath then .ok steamPath
  else .error (.notFound "Could not locate Steam installation on macOS" none)

/-- The error thrown when no Linux strategy succeeds. -/
def linuxNotFoundErr : SteamError :=
  .notFound "Could not locate Steam installation on Linux" none

/-- The candidate list of `findSteamPathLinux` (`src/src/steam-path.ts` lines
95–106); `SNAP_USER_DATA` set and non-empty overrides the snap directory. -/
def linuxCandidatePaths (env : Env) : List String :=
  let home := env.homedir
  let snapDir :=
    match env.envVar "SNAP_USER_DATA" with
    | some s => if s = "" then env.resolvePath home "snap" else env.resolve1 s
    | none => env.resolvePath home "snap"
  [env.resolvePath home ".var/app/com.valvesoftware.Steam/.local/share/Steam",
   env.resolvePath home ".var/app/com.valvesoftware.Steam/.steam/steam",
   env.resolvePath home ".var/app/com.valvesoftware.Steam/.steam/root",
   env.resolvePath home ".local/share/Steam",
   env.resolvePath home ".steam/steam",
   env.resolvePath home ".steam/root",
   env.resolvePath home ".steam/debian-installation",
   env.resolvePath snapDir "steam/common/.local/share/Steam",
   env.resolvePath snapDir "steam/common/.steam/steam",
   env.resolvePath snapDir "steam/common/.steam/root"]

/-- `findSteamPathLinux` (`src/src/steam-path.ts` lines 90–115).  The `seen`
set of the source loop is inserted into only immediately before returning,
so it is empty at every test the loop performs and the loop returns the
first existing candidate. -/
def findSteamPathLinux (env : Env) : Except SteamError String :=
  match (linuxCandidatePaths env).find? env.existsSync with
  | some p => .ok p
  | none => .error linuxNotFoundErr

/-- `findSteamPathSync` (`src/src/steam-path.ts` lines 24–37): dispatch on
`os.platform()`; any platform outside the three recognized tags throws
`SteamNotFoundError` carrying the tag. -/
def findSteamPathSync (env : Env) : Except SteamError String :=
  if env.platform = "win32" then findSteamPathWindows env
  else if env.platform = "darwin" then findSteamPathMacOS env
  else if env.platform = "linux" then findSteamPathLinux env
  else .error (.notFound ("Unsupported platform: " ++ env.platform) (some env.platform))

/-- `findSteamPath` (`src/src/steam-path.ts` lines 10–19): a promise that
resolves with `findSteamPathSync()` or rejects with the error it threw. -/
def findSteamPath (env : Env) : Except SteamError String :=
  findSteamPathSync env

namespace IndexTs

/-- The candidate list of the monolithic `findSteamPathLinux`
(`src/src/index.ts` lines 332–340). -/
def linuxCommonPaths (env : Env) : List String :=
  ["/usr/bin/steam",
   "/usr/local/bin/steam",
   "/opt/steam",
   env.resolvePath env.homedir ".steam/steam",
   env.resolvePath env.homedir ".local/share/Steam",
   "/usr/games/steam",
   "/snap/steam/current"]

/-- The monolithic `findSteamPathLinux` (`src/src/index.ts` lines 331–360):
return the first existing conventional path; otherwise run `which steam`
and return its trimmed output when non-empty and existing on disk;
otherwise throw. -/
def findSteamPathLinux (env : Env) : Except SteamError String :=
  match (linuxCommonPaths env).find? env.existsSync with
  | some p => .ok p
  | none =>
    match env.execSync "which steam" with
    | some whichOutput =>
      let steamPath := jsTrim whichOutput
      if steamPath ≠ "" ∧ env.existsSync steamPath then .ok steamPath
      else .error linuxNotFoundErr
    | none => .error linuxNotFoundErr

end IndexTs

/-! ## Library folder discoverer (`src/src/steam-libraries.ts`) -/

/-- The `for (const match of pathMatches)` loop of `getLibraryFoldersSync`:
for each captured raw path, collapse escaped backslashes, append the
`steamapps` suffix, normalize, and push the result when it exists on disk
and is not already in the accumulated list (exact string comparison). -/
def libLoop (env : Env) (acc : List String) : List String → List String
  | [] => acc
  | p :: rest =>
    let libraryPath := env.normalize (env.joinPath (unescapeBSStr p) "steamapps")
    if env.existsSync libraryPath ∧ libraryPath ∉ acc then
      libLoop env (acc ++ [libraryPath]) rest
    else
      libLoop env acc rest

/-- `getLibraryFoldersSync` (`src/src/steam-libraries.ts` lines 21–55).
A failed read of `libraryfolders.vdf` is swallowed and the list built so
far is returned; the outer catch that returns `[]` is unreachable here
because no other modelled operation throws. -/
def getLibraryFoldersSync (env : Env) (steamPath : String) : List String :=
  let mainAppsFolder := env.joinPath steamPath "steamapps"
  let base := if env.existsSync mainAppsFolder then [env.normalize mainAppsFolder] else []
  let libraryFoldersVdf := env.joinPath (env.joinPath steamPath "steamapps") "libraryfolders.vdf"
  if env.existsSync libraryFoldersVdf then
    match env.readFileSync libraryFoldersVdf with
    | some content => libLoop env base (findAllKeyQuoted "path" content)
    | none => base
  else base

/-- `getLibraryFolders` (`src/src/steam-libraries.ts` lines 7–16): a promise
resolving with the synchronous result; its catch branch resolving `[]` is
unreachable because `getLibraryFoldersSync` never throws. -/
def getLibraryFolders (env : Env) (steamPath : String) : List String :=
  getLibraryFoldersSync env steamPath

/-! ## Manifest parser / app locator (steam-apps module) -/

/-- The body run on the first manifest found: the four independent
field extractions of `findSteamAppInLibrariesSync`, the existence check of
`<libraryFolder>/common/<installdir>` and the assembled record.  The source
guards `installDir ? existsSync(installDir) : false` and
`sizeMatch?.[1] ? parseInt(sizeMatch[1], 10) : undefined`; a capture is
never the empty string, but the truthiness test on `installDir` is kept. -/
def parseManifest (env : Env) (appId libraryFolder manifestContent : String) : SteamApp :=
  let nameM := findKeyQuoted "name" manifestContent
  let installDirM := findKeyQuoted "installdir" manifestContent
  let sizeM := findKeyQuoted "SizeOnDisk" manifestContent
  let lastUpdatedM := findKeyQuoted "LastUpdated" manifestContent
  let installDir := installDirM.map (fun v => env.joinPath (env.joinPath libraryFolder "common") v)
  let isInstalled :=
    match installDir with
    | some d => if d = "" then false else env.existsSync d
    | none => false
  { appId := appId
    name := nameM
    installDir := if isInstalled then installDir else none
    sizeOnDisk := sizeM.map jsParseInt
    isInstalled := isInstalled
    lastUpdated := lastUpdatedM.map (fun v => (jsParseInt v).map (fun n => n * 1000)) }

/-- `findSteamAppInLibrariesSync` (steam-apps module, `src/src/steam-path.ts`
lines 136–171): walk the library folders in order; on the first whose
manifest file exists, read and parse it; a read error is caught and the walk
continues; when the list is exhausted throw `SteamAppNotFoundError`. -/
def findSteamAppInLibrariesSync (env : Env) (appId : String) :
    List String → Except SteamError SteamApp
  | [] => .error (.appNotFound appId (appNotFoundMsg appId))
  | libraryFolder :: rest =>
    let appManifestPath := env.joinPath libraryFolder ("appmanifest_" ++ appId ++ ".acf")
    if env.existsSync appManifestPath then
      match env.readFileSync appManifestPath with
      | some manifestContent => .ok (parseManifest env appId libraryFolder manifestContent)
      | none => findSteamAppInLibrariesSync env appId rest
    else
      findSteamAppInLibrariesSync env appId rest

/-- `findSteamAppInLibraries` delegates to the synchronous version. -/
def findSteamAppInLibraries (env : Env) (appId : String) (libraryFolders : List String) :
    Except SteamError SteamApp :=
  findSteamAppInLibrariesSync env appId libraryFolders

/-! ## Inventory aggregator (steam-apps module) -/

/-- The dedup key built by `getInstalledSteamAppsFromLibrariesSync`:
`app.appId + '|' + normalize(app.installDir)`, lower-cased when the host
platform is `win32` (the source hoists the platform test out of the loop;
the value is the same). -/
def mkKey (env : Env) (appId d : String) : String :=
  let key := appId ++ "|" ++ env.normalize d
  if env.platform = "win32" then jsToLower key else key

/-- The guarded push of the aggregator: only apps with `isInstalled` and a
truthy `installDir` enter, and only when their dedup key is new. -/
def dedupAdd (env : Env) (st : List SteamApp × List String) (app : SteamApp) :
    List SteamApp × List String :=
  if app.isInstalled then
    match app.installDir with
    | some d =>
      if d = "" then st
      else
        let key := mkKey env app.appId d
        if key ∈ st.2 then st else (st.1 ++ [app], st.2 ++ [key])
    | none => st
  else st

/-- The per-directory-entry body of the aggregator: filter manifest-shaped
file names, extract the app id, run the single-folder lookup and push
through the dedup guard; a failed lookup is skipped. -/
def aggStep (env : Env) (libraryFolder : String) (st : List SteamApp × List String)
    (file : String) : List SteamApp × List String :=
  if strStarts "appmanifest_" file && strEnds ".acf" file then
    match appIdOfManifestName file with
    | some appId =>
      match findSteamAppInLibrariesSync env appId [libraryFolder] with
      | .ok app => dedupAdd env st app
      | .error _ => st
    | none => st
  else st

/-- The per-library-folder body: list the directory and fold over its
entries; an unlistable directory is skipped. -/
def aggFolder (env : Env) (st : List SteamApp × List String) (libraryFolder : String) :
    List SteamApp × List String :=
  match env.readdirSync libraryFolder with
  | some files => files.foldl (aggStep env libraryFolder) st
  | none => st

/-- `getInstalledSteamAppsFromLibrariesSync` (steam-apps module,
`src/src/steam-path.ts` lines 192–224). -/
def getInstalledSteamAppsFromLibrariesSync (env : Env) (libraryFolders : List String) :
    List SteamApp :=
  (libraryFolders.foldl (aggFolder env) ([], [])).1

/-- `getInstalledSteamAppsFromLibraries`: a promise resolving with the
synchronous result (its catch branch is unreachable). -/
def getInstalledSteamAppsFromLibraries (env : Env) (libraryFolders : List String) :
    List SteamApp :=
  getInstalledSteamAppsFromLibrariesSync env libraryFolders

/-! ## Process detector (steam-process module) -/

/-- The platform-specific process query command, `none` on an unsupported
platform. -/
def processQueryCmd (env : Env) : Option String :=
  if env.platform = "win32" then some "tasklist /FI \"IMAGENAME eq steam.exe\" /FO CSV /NH"
  else if env.platform = "darwin" then some "pgrep -f \"Steam.app\""
  else if env.platform = "linux" then some "pgrep -f steam"
  else none

/-- `isSteamRunningSync` (steam-process module): run the query; on Windows
test the output for `steam.exe`, elsewhere for non-blank output; any failure
degrades to `false`. -/
def isSteamRunningSync (env : Env) : Bool :=
  match processQueryCmd env with
  | none => false
  | some command =>
    match env.execSync command with
    | none => false
    | some output =>
      if env.platform = "win32" then containsSub "steam.exe" output
      else (jsTrim output).length > 0

/-- `isSteamRunning` (steam-process module): the asynchronous form repeats
the same body inside a promise executor instead of delegating to the
synchronous one; it is embedded separately, mirroring that duplication. -/
def isSteamRunning (env : Env) : Bool :=
  match processQueryCmd env with
  | none => false
  | some command =>
    match env.execSync command with
    | none => false
    | some output =>
      if env.platform = "win32" then containsSub "steam.exe" output
      else (jsTrim output).length > 0

/-! ## Version detector (`src/src/steam-version.ts`) -/

/-- The powershell file-version query command. -/
def versionCmd (steamExePath : String) : String :=
  "powershell -Command \"(Get-Item \x27" ++ steamExePath ++ "\x27).VersionInfo.FileVersion\""

/-- The fallback loop over the conventional version-marker files: the first
that exists, reads successfully and has non-blank trimmed content wins. -/
def versionLoop (env : Env) : List String → Option String
  | [] => none
  | versionPath :: rest =>
    if env.existsSync versionPath then
      match env.readFileSync versionPath with
      | some content =>
        let t := jsTrim content
        if t ≠ "" then some t else versionLoop env rest
      | none => versionLoop env rest
    else versionLoop env rest

/-- `getSteamVersionSync` (`src/src/steam-version.ts` lines 23–68): on
Windows, query `steam.exe` file metadata first (an untrimmed-empty output is
still returned); then fall back to the version-marker files. -/
def getSteamVersionSync (env : Env) (steamPath : String) : Option String :=
  let fromExe : Option String :=
    if env.platform = "win32" then
      let steamExePath := env.joinPath steamPath "steam.exe"
      if env.existsSync steamExePath then
        match env.execSync (versionCmd steamExePath) with
        | some output => some (jsTrim output)
        | none => none
      else none
    else none
  match fromExe with
  | some v => some v
  | none =>
    versionLoop env
      [env.joinPath (env.joinPath steamPath "package") "steam_client_win32",
       env.joinPath steamPath "steam_client_win32",
       env.joinPath steamPath "version.txt",
       env.joinPath (env.joinPath steamPath "package") "version.txt"]

/-- `getSteamVersion`: a promise resolving with the synchronous result,
errors degrading to `undefined` (unreachable here). -/
def getSteamVersion (env : Env) (steamPath : String) : Option String :=
  getSteamVersionSync env steamPath

/-! ## Orchestrator (the modular `index.ts`, `src/unnamed/part_000`) -/

/-- The catch of `findSteamLocationSync`: a `SteamNotFoundError` is
rethrown; anything else is wrapped into one carrying the platform tag. -/
def wrapLocate (env : Env) (e : SteamError) : SteamError :=
  match e with
  | .notFound .. => e
  | _ => .notFound ("Failed to find Steam on " ++ env.platform ++ ": " ++ e.message)
      (some env.platform)

/-- `findSteamLocationSync` (`src/unnamed/part_000` lines 56–84): resolve
the root, discover library folders, normalize both on Windows, query
running state and version, and assemble the record. -/
def findSteamLocationSync (env : Env) : Except SteamError SteamLocation :=
  match findSteamPathSync env with
  | .error e => .error (wrapLocate env e)
  | .ok steamPath0 =>
    let libraryFolders0 := getLibraryFoldersSync env steamPath0
    let steamPath := if env.platform = "win32" then env.normalize steamPath0 else steamPath0
    let libraryFolders :=
      if env.platform = "win32" then libraryFolders0.map env.normalize else libraryFolders0
    .ok { path := steamPath
          isRunning := isSteamRunningSync env
          platform := env.platform
          version := getSteamVersionSync env steamPath
          libraryFolders := libraryFolders }

/-- `findSteamLocation` (`src/unnamed/part_000` lines 21–49): the
asynchronous form, built from the asynchronous collaborators (the
`.catch(() => [])` and `.catch(() => undefined)` guards are no-ops because
those collaborators never reject). -/
def findSteamLocation (env : Env) : Except SteamError SteamLocation :=
  match findSteamPath env with
  | .error e => .error (wrapLocate env e)
  | .ok steamPath0 =>
    let libraryFolders0 := getLibraryFolders env steamPath0
    let steamPath := if env.platform = "win32" then env.normalize steamPath0 else steamPath0
    let libraryFolders :=
      if env.platform = "win32" then libraryFolders0.map env.normalize else libraryFolders0
    .ok { path := steamPath
          isRunning := isSteamRunning env
          platform := env.platform
          version := getSteamVersion env steamPath
          libraryFolders := libraryFolders }

/-- The catch of `findSteamAppSync`: `SteamAppNotFoundError` and
`SteamNotFoundError` are rethrown; the branch wrapping any other error into
`SteamAppNotFoundError` is unreachable because the modelled operations only
throw these two kinds — so the catch is the identity. -/
def wrapApp (_appId : String) (e : SteamError) : SteamError := e

/-- `steamPath || findSteamPathSync()`: a caller-supplied root is used only
when truthy (present and non-empty); otherwise the resolver runs. -/
def actualSteamPath (env : Env) (steamPath : Option String) : Except SteamError String :=
  match steamPath with
  | some r => if r = "" then findSteamPathSync env else .ok r
  | none => findSteamPathSync env

/-- `findSteamAppSync` (`src/unnamed/part_000` lines 115–126). -/
def findSteamAppSync (env : Env) (appId : String) (steamPath : Option String) :
    Except SteamError SteamApp :=
  match actualSteamPath env steamPath with
  | .error e => .error (wrapApp appId e)
  | .ok actual =>
    match findSteamAppInLibrariesSync env appId (getLibraryFoldersSync env actual) with
    | .ok app => .ok app
    | .error e => .error (wrapApp appId e)

/-- `findSteamApp` (`src/unnamed/part_000` lines 94–105): the asynchronous
form, built from the asynchronous collaborators. -/
def findSteamApp (env : Env) (appId : String) (steamPath : Option String) :
    Except SteamError SteamApp :=
  match (match steamPath with
         | some r => if r = "" then findSteamPath env else .ok r
         | none => findSteamPath env) with
  | .error e => .error (wrapApp appId e)
  | .ok actual =>
    match findSteamAppInLibraries env appId (getLibraryFolders env actual) with
    | .ok app => .ok app
    | .error e => .error (wrapApp appId e)

/-- The catch of `getInstalledSteamAppsSync`: a `SteamNotFoundError` is
rethrown, anything else is wrapped into one without a platform tag
(unreachable here, since only the resolver throws in the body). -/
def wrapList (e : SteamError) : SteamError :=
  match e with
  | .notFound .. => e
  | _ => .notFound ("Error getting installed Steam apps: " ++ e.message) none

/-- `getInstalledSteamAppsSync` (`src/unnamed/part_000` lines 153–164). -/
def getInstalledSteamAppsSync (env : Env) (steamPath : Option String) :
    Except SteamError (List SteamApp) :=
  match actualSteamPath env steamPath with
  | .error e => .error (wrapList e)
  | .ok actual =>
    .ok (getInstalledSteamAppsFromLibrariesSync env (getLibraryFoldersSync env actual))

/-- `getInstalledSteamApps` (`src/unnamed/part_000` lines 134–145): the
asynchronous form. -/
def getInstalledSteamApps (env : Env) (steamPath : Option String) :
    Except SteamError (List SteamApp) :=
  match (match steamPath with
         | some r => if r = "" then findSteamPath env else .ok r
         | none => findSteamPath env) with
  | .error e => .error (wrapList e)
  | .ok actual =>
    .ok (getInstalledSteamAppsFromLibraries env (getLibraryFolders env actual))

/-! ## Claim-side formulations and proofs -/

/-- The registry-derived candidate path, when the query command succeeds and
its output matches the extraction pattern: the trimmed, normalized capture. -/
def registryCandidate (env : Env) : Option String :=
  match env.execSync regQueryCmd with
  | none => none
  | some regOutput => (regCapture regOutput).map (fun cap => env.normalize (jsTrim cap))

/-- The probe phase as the claim words it: the first entry of the fixed
ordered list (each normalized) that exists and contains `steam.exe`;
otherwise the not-found error. -/
def probeCommonSpec (env : Env) : Except SteamError String :=
  match ((commonWindowsPaths env).map env.normalize).find? (verifiedSteamDir env) with
  | some p => .ok p
  | none => .error (.notFound "Could not locate Steam installation on Windows" none)

/-- The Windows resolution as claim C1 words it: the registry candidate is
returned immediately exactly when it exists on disk and contains
`steam.exe`; on registry miss or failed verification the fixed probe list
decides. -/
def windowsResolutionSpec (env : Env) : Except SteamError String :=
  match registryCandidate env with
  | some p => if verifiedSteamDir env p then .ok p else probeCommonSpec env
  | none => probeCommonSpec env

theorem findWindowsCommonLoop_eq_find (env : Env) (l : List String) :
    findWindowsCommonLoop env l =
      match (l.map env.normalize).find? (verifiedSteamDir env) with
      | some p => .ok p
      | none => .error (.notFound "Could not locate Steam installation on Windows" none) := by
  induction l with
  | nil => rfl
  | cons p rest ih =>
    unfold findWindowsCommonLoop
    cases h : verifiedSteamDir env (env.normalize p) with
    | true => simp [List.find?_cons, h]
    | false => simp [List.find?_cons, h, ih]

/-- C1: on Windows, root resolution first queries the registry (HKCU then
HKLM inside one chained command) and returns the extracted path immediately
iff it exists on disk and contains `steam.exe`; on registry miss or failed
verification it probes, in order, the two fixed program-file paths and the
`LOCALAPPDATA`/`APPDATA`-derived paths, returning the first verified entry,
and throws `SteamNotFoundError` when none qualifies.  Returning the first
`find?` hit of the probe list expresses that no probe after the first
verified match is performed; the statement holds for every filesystem,
registry and environment behaviour. -/
theorem windows_root_resolution_matches_claim (env : Env) :
    findSteamPathWindows env = windowsResolutionSpec env := by
  have hloop := findWindowsCommonLoop_eq_find env (commonWindowsPaths env)
  unfold findSteamPathWindows windowsResolutionSpec registryCandidate probeCommonSpec
  rw [hloop]
  cases henv : env.execSync regQueryCmd with
  | none => rfl
  | some regOutput =>
    dsimp only
    cases hcap : regCapture regOutput with
    | none => rfl
    | some cap =>
      by_cases hv : verifiedSteamDir env (env.normalize (jsTrim cap)) = true
      · simp [hv]
      · simp [hv]

/-- C8: for every host platform tag other than the three recognized ones,
root resolution throws `SteamNotFoundError` carrying that tag.  The theorem
quantifies over the whole environment, so the result is independent of
every filesystem, registry and command facility: no probe or invocation can
influence it. -/
theorem unsupported_platform_rejected (env : Env)
    (h1 : env.platform ≠ "win32") (h2 : env.platform ≠ "darwin")
    (h3 : env.platform ≠ "linux") :
    findSteamPathSync env =
      .error (.notFound ("Unsupported platform: " ++ env.platform) (some env.platform)) := by
  simp [findSteamPathSync, h1, h2, h3]

/-- A host with an unrecognized platform tag and inert facilities. -/
def envAix : Env :=
  { platform := "aix", homedir := "/home/u"
    existsSync := fun _ => false
    readFileSync := fun _ => none
    readdirSync := fun _ => none
    execSync := fun _ => none
    envVar := fun _ => none
    normalize := id, resolve1 := id
    resolvePath := fun a b => a ++ "/" ++ b
    joinPath := fun a b => a ++ "/" ++ b }

theorem unsupported_platform_rejected_witness :
    findSteamPathSync envAix =
      .error (.notFound "Unsupported platform: aix" (some "aix")) :=
  unsupported_platform_rejected envAix (by decide) (by decide) (by decide)

/-- The `which steam` fallback of the monolithic Linux resolver, as claim C7
words it: the reported path is returned when its trimmed output is
non-empty and exists on disk; otherwise the not-found error. -/
def linuxWhichFallback (env : Env) : Except SteamError String :=
  match env.execSync "which steam" with
  | some whichOutput =>
    let steamPath := jsTrim whichOutput
    if steamPath ≠ "" ∧ env.existsSync steamPath then .ok steamPath
    else .error linuxNotFoundErr
  | none => .error linuxNotFoundErr

/-- C7: on Linux (monolithic resolver, `src/src/index.ts` lines 331–360),
when none of the conventional candidate paths exists, resolution falls back
to a `which steam` lookup and returns the reported path if it exists on
disk; only when this fallback also fails does it throw
`SteamNotFoundError`. -/
theorem linux_which_fallback (env : Env)
    (h : ∀ p ∈ IndexTs.linuxCommonPaths env, env.existsSync p = false) :
    IndexTs.findSteamPathLinux env = linuxWhichFallback env := by
  unfold IndexTs.findSteamPathLinux linuxWhichFallback
  have hf : (IndexTs.linuxCommonPaths env).find? env.existsSync = none := by
    rw [List.find?_eq_none]
    intro x hx
    simp [h x hx]
  rw [hf]

/-- A Linux host where no conventional candidate exists but `which steam`
reports an existing binary outside the candidate list. -/
def envWhich : Env :=
  { platform := "linux", homedir := "/home/u"
    existsSync := fun p => p == "/nix/steam"
    readFileSync := fun _ => none
    readdirSync := fun _ => none
    execSync := fun c => if c == "which steam" then some "/nix/steam\n" else none
    envVar := fun _ => none
    normalize := id, resolve1 := id
    resolvePath := fun a b => a ++ "/" ++ b
    joinPath := fun a b => a ++ "/" ++ b }

theorem linux_which_fallback_witness :
    (∀ p ∈ IndexTs.linuxCommonPaths envWhich, envWhich.existsSync p = false) ∧
    IndexTs.findSteamPathLinux envWhich = .ok "/nix/steam" := by
  refine ⟨by decide, ?_⟩
  rw [linux_which_fallback envWhich (by decide)]
  decide

/-- The first library folder, in list order, whose manifest for `appId`
exists on disk and whose read succeeds, together with the content read:
folders after it are never examined, and folders whose manifest exists but
fails to read are skipped. -/
def firstReadableManifest (env : Env) (appId : String) :
    List String → Option (String × String)
  | [] => none
  | libraryFolder :: rest =>
    let appManifestPath := env.joinPath libraryFolder ("appmanifest_" ++ appId ++ ".acf")
    if env.existsSync appManifestPath then
      match env.readFileSync appManifestPath with
      | some content => some (libraryFolder, content)
      | none => firstReadableManifest env appId rest
    else firstReadableManifest env appId rest

/-- C2 (amended): the locator throws `SteamAppNotFoundError` carrying the
requested id iff no library folder holds a readable manifest for it, and
otherwise returns the record parsed from the first folder, in list order,
whose manifest exists and is read successfully — an existing manifest whose
read fails is skipped, which is why mere existence (the claim as frozen)
does not decide the outcome. -/
theorem locator_first_readable (env : Env) (appId : String)
    (libraryFolders : List String) :
    findSteamAppInLibrariesSync env appId libraryFolders =
      match firstReadableManifest env appId libraryFolders with
      | some (f, content) => .ok (parseManifest env appId f content)
      | none => .error (.appNotFound appId (appNotFoundMsg appId)) := by
  induction libraryFolders with
  | nil => rfl
  | cons f rest ih =>
    unfold findSteamAppInLibrariesSync firstReadableManifest
    by_cases he : env.existsSync (env.joinPath f ("appmanifest_" ++ appId ++ ".acf")) = true
    · simp only [he, if_true]
      cases env.readFileSync (env.joinPath f ("appmanifest_" ++ appId ++ ".acf")) with
      | some content => rfl
      | none => exact ih
    · simp only [he, if_false, Bool.false_eq_true]
      exact ih

/-- A filesystem on which the manifest of app 7 exists in the only library
folder but every read throws. -/
def envReadFail : Env :=
  { platform := "linux", homedir := "/home/u"
    existsSync := fun p => p == "lib/appmanifest_7.acf"
    readFileSync := fun _ => none
    readdirSync := fun _ => none
    execSync := fun _ => none
    envVar := fun _ => none
    normalize := id, resolve1 := id
    resolvePath := fun a b => a ++ "/" ++ b
    joinPath := fun a b => a ++ "/" ++ b }

/-- C2 counterexample: the folder `lib` does contain the file
`appmanifest_7.acf` (its existence check is true), yet the locator throws
`SteamAppNotFoundError` because the read fails — refuting the frozen
claim's "fails iff no folder contains the file" and its "built from the
first such folder". -/
theorem locator_claim_counterexample :
    envReadFail.existsSync (envReadFail.joinPath "lib" ("appmanifest_" ++ "7" ++ ".acf")) =
      true ∧
    findSteamAppInLibrariesSync envReadFail "7" ["lib"] =
      .error (.appNotFound "7" (appNotFoundMsg "7")) := by
  exact ⟨rfl, rfl⟩

/-- C4: a manifest whose `installdir` field is extracted but whose computed
`<libraryFolder>/common/<installdir>` path does not exist yields
`isInstalled = false` and an absent `installDir`, even though the raw value
was present in the manifest text. -/
theorem unverified_installdir_not_surfaced (env : Env)
    (appId folder content v : String)
    (hex : env.existsSync (env.joinPath folder ("appmanifest_" ++ appId ++ ".acf")) = true)
    (hread : env.readFileSync (env.joinPath folder ("appmanifest_" ++ appId ++ ".acf")) =
      some content)
    (hdir : findKeyQuoted "installdir" content = some v)
    (hmiss : env.existsSync (env.joinPath (env.joinPath folder "common") v) = false) :
    findSteamAppInLibrariesSync env appId [folder] =
      .ok (parseManifest env appId folder content) ∧
    (parseManifest env appId folder content).isInstalled = false ∧
    (parseManifest env appId folder content).installDir = none := by
  have hI : (parseManifest env appId folder content).isInstalled = false := by
    simp only [parseManifest, hdir, Option.map_some']
    by_cases hd : env.joinPath (env.joinPath folder "common") v = ""
    · simp [hd]
    · simp [hd, hmiss]
  refine ⟨?_, hI, ?_⟩
  · unfold findSteamAppInLibrariesSync
    simp [hex, hread]
  · simp only [parseManifest] at hI ⊢
    simp only [hdir, Option.map_some'] at hI ⊢
    simp [hI]

/-- A filesystem holding a manifest for app 9 that declares `installdir`
`Game9` while `lib/common/Game9` does not exist. -/
def envNoCommon : Env :=
  { platform := "linux", homedir := "/h"
    existsSync := fun p => p == "lib/appmanifest_9.acf"
    readFileSync := fun p =>
      if p == "lib/appmanifest_9.acf" then some "\"installdir\" \"Game9\"" else none
    readdirSync := fun _ => none
    execSync := fun _ => none
    envVar := fun _ => none
    normalize := id, resolve1 := id
    resolvePath := fun a b => a ++ "/" ++ b
    joinPath := fun a b => a ++ "/" ++ b }

theorem unverified_installdir_not_surfaced_witness :
    findSteamAppInLibrariesSync envNoCommon "9" ["lib"] =
      .ok (parseManifest envNoCommon "9" "lib" "\"installdir\" \"Game9\"") ∧
    (parseManifest envNoCommon "9" "lib" "\"installdir\" \"Game9\"").isInstalled = false ∧
    (parseManifest envNoCommon "9" "lib" "\"installdir\" \"Game9\"").installDir = none :=
  unverified_installdir_not_surfaced envNoCommon "9" "lib" "\"installdir\" \"Game9\"" "Game9"
    rfl rfl rfl rfl

/-- A filesystem holding a manifest for app 1 whose `SizeOnDisk` and
`LastUpdated` values are non-numeric strings. -/
def envNaN : Env :=
  { platform := "linux", homedir := "/h"
    existsSync := fun p => p == "lib/appmanifest_1.acf"
    readFileSync := fun p =>
      if p == "lib/appmanifest_1.acf"
      then some "\"SizeOnDisk\" \"abc\" \"LastUpdated\" \"xyz\"" else none
    readdirSync := fun _ => none
    execSync := fun _ => none
    envVar := fun _ => none
    normalize := id, resolve1 := id
    resolvePath := fun a b => a ++ "/" ++ b
    joinPath := fun a b => a ++ "/" ++ b }

/-- C5 counterexample: with `SizeOnDisk` extracted as the non-numeric
`"abc"` the returned record's `sizeOnDisk` is `some none` — present with
value `NaN` — not the absent `none` the claim states; `LastUpdated`
extracted as `"xyz"` likewise yields a present invalid date.  The source
computes `sizeMatch?.[1] ? parseInt(sizeMatch[1], 10) : undefined`, so a
truthy capture always produces a number, `NaN` included. -/
theorem nonnumeric_fields_counterexample :
    (findSteamAppInLibrariesSync envNaN "1" ["lib"]).map SteamApp.sizeOnDisk =
      .ok (some (none : Option Int)) ∧
    (findSteamAppInLibrariesSync envNaN "1" ["lib"]).map SteamApp.lastUpdated =
      .ok (some (none : Option Int)) := by
  exact ⟨rfl, rfl⟩

/-- C5 (amended): for any manifest the locator reads, each property holds
independently — whenever `SizeOnDisk` is extracted and is non-numeric, the
parse succeeds and the returned `sizeOnDisk` is present with value `NaN`
(`some none` in the model); and whenever `LastUpdated` is extracted and is
non-numeric, the returned `lastUpdated` is present as an invalid date.
Neither field is absent, and neither failure aborts the parse; a manifest
carrying only one of the two fields satisfies the respective conjunct. -/
theorem nonnumeric_fields_present_as_nan (env : Env)
    (appId folder content : String)
    (hex : env.existsSync (env.joinPath folder ("appmanifest_" ++ appId ++ ".acf")) = true)
    (hread : env.readFileSync (env.joinPath folder ("appmanifest_" ++ appId ++ ".acf")) =
      some content) :
    (∀ v, findKeyQuoted "SizeOnDisk" content = some v → jsParseInt v = none →
      (findSteamAppInLibrariesSync env appId [folder]).map SteamApp.sizeOnDisk =
        .ok (some (none : Option Int))) ∧
    (∀ w, findKeyQuoted "LastUpdated" content = some w → jsParseInt w = none →
      (findSteamAppInLibrariesSync env appId [folder]).map SteamApp.lastUpdated =
        .ok (some (none : Option Int))) := by
  have hrun : findSteamAppInLibrariesSync env appId [folder] =
      .ok (parseManifest env appId folder content) := by
    unfold findSteamAppInLibrariesSync
    simp [hex, hread]
  constructor
  · intro v hsize hv
    rw [hrun]
    simp [Except.map, parseManifest, hsize, hv]
  · intro w hlast hw
    rw [hrun]
    simp [Except.map, parseManifest, hlast, hw]

/-- A filesystem holding a manifest for app 1 that carries only a
non-numeric `SizeOnDisk` field (no `LastUpdated` at all). -/
def envNaNSize : Env :=
  { platform := "linux", homedir := "/h"
    existsSync := fun p => p == "lib/appmanifest_1.acf"
    readFileSync := fun p =>
      if p == "lib/appmanifest_1.acf" then some "\"SizeOnDisk\" \"abc\"" else none
    readdirSync := fun _ => none
    execSync := fun _ => none
    envVar := fun _ => none
    normalize := id, resolve1 := id
    resolvePath := fun a b => a ++ "/" ++ b
    joinPath := fun a b => a ++ "/" ++ b }

/-- A filesystem holding a manifest for app 1 that carries only a
non-numeric `LastUpdated` field (no `SizeOnDisk` at all). -/
def envNaNLast : Env :=
  { platform := "linux", homedir := "/h"
    existsSync := fun p => p == "lib/appmanifest_1.acf"
    readFileSync := fun p =>
      if p == "lib/appmanifest_1.acf" then some "\"LastUpdated\" \"xyz\"" else none
    readdirSync := fun _ => none
    execSync := fun _ => none
    envVar := fun _ => none
    normalize := id, resolve1 := id
    resolvePath := fun a b => a ++ "/" ++ b
    joinPath := fun a b => a ++ "/" ++ b }

theorem nonnumeric_fields_present_as_nan_witness :
    (findSteamAppInLibrariesSync envNaNSize "1" ["lib"]).map SteamApp.sizeOnDisk =
      .ok (some (none : Option Int)) ∧
    (findSteamAppInLibrariesSync envNaNLast "1" ["lib"]).map SteamApp.lastUpdated =
      .ok (some (none : Option Int)) :=
  ⟨(nonnumeric_fields_present_as_nan envNaNSize "1" "lib" "\"SizeOnDisk\" \"abc\""
      rfl rfl).1 "abc" rfl rfl,
   (nonnumeric_fields_present_as_nan envNaNLast "1" "lib" "\"LastUpdated\" \"xyz\""
      rfl rfl).2 "xyz" rfl rfl⟩

/-! ## C3: the inventory aggregator never repeats a dedup key -/

/-- The dedup key of claim C3: the app id concatenated with the normalized
install directory, lower-cased exactly when the host platform is `win32`. -/
def dedupKey (env : Env) (app : SteamApp) : String :=
  let raw := app.appId ++ "|" ++ env.normalize (app.installDir.getD "")
  if env.platform = "win32" then jsToLower raw else raw

/-- The invariant carried through the aggregation fold: every emitted app's
dedup key is recorded in the seen set, and the emitted apps have pairwise
distinct keys. -/
def AggInv (env : Env) (st : List SteamApp × List String) : Prop :=
  (∀ a ∈ st.1, dedupKey env a ∈ st.2) ∧
    st.1.Pairwise (fun a b => dedupKey env a ≠ dedupKey env b)

theorem dedupAdd_inv (env : Env) (st : List SteamApp × List String) (app : SteamApp)
    (h : AggInv env st) : AggInv env (dedupAdd env st app) := by
  unfold dedupAdd
  cases hin : app.isInstalled with
  | false => exact h
  | true =>
    cases hdir : app.installDir with
    | none => exact h
    | some d =>
      by_cases hd : d = ""
      · simp only [hd, if_true, reduceIte]
        exact h
      · by_cases hk : mkKey env app.appId d ∈ st.2
        · simp only [hd, hk, if_false, if_true, reduceIte]
          exact h
        · have hkey : dedupKey env app = mkKey env app.appId d := by
            simp [dedupKey, mkKey, hdir]
          obtain ⟨hmem, hpw⟩ := h
          simp only [hd, hk, reduceIte]
          constructor
          · intro a ha
            rcases List.mem_append.mp ha with h1 | h2
            · exact List.mem_append_left _ (hmem a h1)
            · have : a = app := by simpa using h2
              subst this
              exact List.mem_append_right _ (by simp [hkey])
          · rw [List.pairwise_append]
            refine ⟨hpw, List.pairwise_singleton _ _, ?_⟩
            intro a ha b hb
            have hb' : b = app := by simpa using hb
            subst hb'
            rw [hkey]
            intro hcontra
            exact hk (hcontra ▸ hmem a ha)

theorem aggStep_inv (env : Env) (folder : String) (st : List SteamApp × List String)
    (file : String) (h : AggInv env st) : AggInv env (aggStep env folder st file) := by
  unfold aggStep
  by_cases hf : (strStarts "appmanifest_" file && strEnds ".acf" file) = true
  · simp only [hf, if_true, reduceIte]
    cases appIdOfManifestName file with
    | none => exact h
    | some appId =>
      dsimp only
      cases findSteamAppInLibrariesSync env appId [folder] with
      | error e => exact h
      | ok app => exact dedupAdd_inv env st app h
  · simp only [hf, if_false, reduceIte]
    exact h

theorem foldl_preserve {α β : Type} {P : α → Prop} {f : α → β → α}
    (hstep : ∀ a b, P a → P (f a b)) :
    ∀ (l : List β) (a : α), P a → P (l.foldl f a)
  | [], _, h => h
  | b :: l, a, h => foldl_preserve hstep l (f a b) (hstep a b h)

theorem aggFolder_inv (env : Env) (st : List SteamApp × List String)
    (folder : String) (h : AggInv env st) : AggInv env (aggFolder env st folder) := by
  unfold aggFolder
  cases env.readdirSync folder with
  | none => exact h
  | some files => exact foldl_preserve (fun a b ha => aggStep_inv env folder a b ha) files st h

/-- C3: for every environment (hence every filesystem state and host
platform) and every list of library folders, the inventory aggregator never
returns two entries with the same dedup key — the app id joined with the
normalized install directory, case-folded exactly on `win32` — even when
the same manifest is reachable from two distinct library folders. -/
theorem inventory_dedup_keys_distinct (env : Env) (libraryFolders : List String) :
    (getInstalledSteamAppsFromLibrariesSync env libraryFolders).Pairwise
      (fun a b => dedupKey env a ≠ dedupKey env b) := by
  have h : AggInv env (libraryFolders.foldl (aggFolder env) ([], [])) :=
    foldl_preserve (fun a b ha => aggFolder_inv env a b ha) libraryFolders ([], [])
      ⟨by simp, List.Pairwise.nil⟩
  exact h.2

/-! ## C6: the library-folder list -/

/-- The raw `"path"` captures of the manifest-folders file, in appearance
order: empty when the file does not exist or cannot be read. -/
def vdfPathEntries (env : Env) (steamPath : String) : List String :=
  let libraryFoldersVdf := env.joinPath (env.joinPath steamPath "steamapps") "libraryfolders.vdf"
  if env.existsSync libraryFoldersVdf then
    match env.readFileSync libraryFoldersVdf with
    | some content => findAllKeyQuoted "path" content
    | none => []
  else []

/-- One step of the claim's description: append the candidate iff it exists
on disk and is not already in the accumulated list under exact string
equality. -/
def specInsert (env : Env) (acc : List String) (lib : String) : List String :=
  if env.existsSync lib ∧ lib ∉ acc then acc ++ [lib] else acc

/-- The library-folder list exactly as claim C6 words it: `root/steamapps`
first iff it exists, then, for each `"path"` entry in file-appearance order,
the separator-normalized path with the `steamapps` suffix appended, included
iff it exists and is not yet present — and nothing else. -/
def libraryFoldersSpec (env : Env) (steamPath : String) : List String :=
  let base :=
    if env.existsSync (env.joinPath steamPath "steamapps")
    then [env.normalize (env.joinPath steamPath "steamapps")] else []
  (vdfPathEntries env steamPath).foldl
    (fun acc p => specInsert env acc (env.normalize (env.joinPath (unescapeBSStr p) "steamapps")))
    base

theorem libLoop_eq_foldl (env : Env) (l : List String) (acc : List String) :
    libLoop env acc l =
      l.foldl
        (fun acc p =>
          specInsert env acc (env.normalize (env.joinPath (unescapeBSStr p) "steamapps")))
        acc := by
  induction l generalizing acc with
  | nil => rfl
  | cons p rest ih =>
    rw [List.foldl_cons, ← ih]
    unfold libLoop specInsert
    dsimp only
    by_cases h : env.existsSync (env.normalize (env.joinPath (unescapeBSStr p) "steamapps")) =
        true ∧ env.normalize (env.joinPath (unescapeBSStr p) "steamapps") ∉ acc
    · rw [if_pos h, if_pos h]
      exact libLoop.eq_def env _ rest
    · rw [if_neg h, if_neg h]
      exact libLoop.eq_def env _ rest

/-- C6: for every root path and every environment, the discovered
library-folder list is exactly: the root's own `steamapps` folder first iff
it exists, followed by, for each `"path"` entry of `libraryfolders.vdf` in
file-appearance order, the separator-normalized path with the `steamapps`
suffix appended, included iff it exists on disk and is not already in the
accumulated list under exact string equality — and no other entries. -/
theorem library_folders_match_claim (env : Env) (steamPath : String) :
    getLibraryFoldersSync env steamPath = libraryFoldersSpec env steamPath := by
  unfold getLibraryFoldersSync libraryFoldersSpec vdfPathEntries
  by_cases hv : env.existsSync
      (env.joinPath (env.joinPath steamPath "steamapps") "libraryfolders.vdf") = true
  · simp only [hv, if_true, reduceIte]
    cases env.readFileSync
        (env.joinPath (env.joinPath steamPath "steamapps") "libraryfolders.vdf") with
    | some content => exact libLoop_eq_foldl env (findAllKeyQuoted "path" content) _
    | none => rfl
  · simp only [hv, if_false, Bool.false_eq_true, reduceIte]
    rfl

/-! ## C9: the asynchronous and synchronous forms agree -/

/-- C9: in every fixed environment each asynchronous public operation
returns the same value, or fails with the same error kind and payload, as
its synchronous counterpart: `findSteamLocation` / `findSteamLocationSync`,
`findSteamApp` / `findSteamAppSync`, `getInstalledSteamApps` /
`getInstalledSteamAppsSync` and `isSteamRunning` / `isSteamRunningSync`.
The asynchronous forms are embedded from their own source bodies (promise
wrappers around the synchronous core, plus one duplicated body for the
process detector), so each equality discharges by unfolding both sides. -/
theorem sync_async_agree (env : Env) (appId : String) (root : Option String) :
    findSteamLocation env = findSteamLocationSync env ∧
    findSteamApp env appId root = findSteamAppSync env appId root ∧
    getInstalledSteamApps env root = getInstalledSteamAppsSync env root ∧
    isSteamRunning env = isSteamRunningSync env :=
  ⟨rfl, rfl, rfl, rfl⟩

/-! ## C10: a caller-supplied root skips resolution -/

/-- Whether a locator outcome is a success or a `SteamAppNotFoundError`
carrying the given id — the only outcomes claim C10 allows when the caller
supplied a non-empty root. -/
def resultOkOrApp (appId : String) : Except SteamError SteamApp → Bool
  | .ok _ => true
  | .error (.appNotFound i _) => i == appId
  | .error (.notFound _ _) => false

theorem locator_error_kind (env : Env) (appId : String) (l : List String) :
    resultOkOrApp appId (findSteamAppInLibrariesSync env appId l) = true := by
  induction l with
  | nil => simp [findSteamAppInLibrariesSync, resultOkOrApp]
  | cons f rest ih =>
    unfold findSteamAppInLibrariesSync
    by_cases he : env.existsSync (env.joinPath f ("appmanifest_" ++ appId ++ ".acf")) = true
    · simp only [he, if_true, reduceIte]
      cases env.readFileSync (env.joinPath f ("appmanifest_" ++ appId ++ ".acf")) with
      | some content => rfl
      | none => exact ih
    · simp only [he, if_false, Bool.false_eq_true, reduceIte]
      exact ih

/-- A host whose platform tag lies outside the three recognized values,
with inert facilities: auto-detection on it throws the unsupported-platform
`SteamNotFoundError`. -/
def unsupportedEnv : Env :=
  { platform := "plan9", homedir := "/h"
    existsSync := fun _ => false
    readFileSync := fun _ => none
    readdirSync := fun _ => none
    execSync := fun _ => none
    envVar := fun _ => none
    normalize := id, resolve1 := id
    resolvePath := fun a b => a ++ "/" ++ b
    joinPath := fun a b => a ++ "/" ++ b }

/-- C10: with a non-empty caller-supplied root, `findSteamAppSync` (and the
asynchronous `findSteamApp`) skips root resolution entirely and every
failure is a `SteamAppNotFoundError` carrying the requested id — never a
`SteamNotFoundError`; a caller-supplied empty-string root is treated as
absent (the result coincides with the no-root call), and that auto-detection
can throw `SteamNotFoundError`, witnessed on a host with an unsupported
platform tag. -/
theorem caller_root_skips_resolution (env : Env) (appId : String) :
    (∀ root : String, root ≠ "" →
      resultOkOrApp appId (findSteamAppSync env appId (some root)) = true ∧
      resultOkOrApp appId (findSteamApp env appId (some root)) = true) ∧
    findSteamAppSync env appId (some "") = findSteamAppSync env appId none ∧
    findSteamAppSync unsupportedEnv appId (some "") =
      .error (.notFound ("Unsupported platform: " ++ "plan9") (some "plan9")) := by
  refine ⟨?_, ?_, ?_⟩
  · intro root hr
    have hactual : actualSteamPath env (some root) = .ok root := by
      simp [actualSteamPath, hr]
    have h := locator_error_kind env appId (getLibraryFoldersSync env root)
    have hsync : resultOkOrApp appId (findSteamAppSync env appId (some root)) = true := by
      unfold findSteamAppSync
      rw [hactual]
      dsimp only
      cases hres : findSteamAppInLibrariesSync env appId (getLibraryFoldersSync env root) with
      | ok app => rfl
      | error e =>
        rw [hres] at h
        simpa [wrapApp] using h
    refine ⟨hsync, ?_⟩
    exact hsync
  · rfl
  · rfl

theorem caller_root_skips_resolution_witness :
    resultOkOrApp "440" (findSteamAppSync unsupportedEnv "440" (some "C:/Steam")) = true ∧
    findSteamAppSync unsupportedEnv "440" (some "") =
      .error (.notFound ("Unsupported platform: " ++ "plan9") (some "plan9")) := by
  refine ⟨?_, (caller_root_skips_resolution unsupportedEnv "440").2.2⟩
  exact ((caller_root_skips_resolution unsupportedEnv "440").1 "C:/Steam" (by decide)).1
